import Mathlib

/-!
Verification of the PyMoDAQ labeled data model (`src/pymodaq/utils/data.py`)
against its natural-language specification.

The embedding translates the Python classes `Axis`, `AxesManager`, `DataBase`
and `DataToExport` into Lean structures and pure functions.  Numbers are
modelled by the rationals (exact arithmetic stands in for numpy floating
point, and `np.allclose` is modelled as exact equality); numpy 1-D arrays
become `List ℚ`; n-dimensional arrays become a shape together with a flat
value list; Python `None` becomes `Option`; raised exceptions become
`Except String`.  Methods that mutate `self` are modelled as state
transformers returning the new object state.
-/

namespace PyMoDAQ

/-- Decidable equality for the exception monad used by the embedding, so
that counterexamples and witnesses can be checked by evaluation. -/
instance {ε α : Type} [DecidableEq ε] [DecidableEq α] : DecidableEq (Except ε α)
  | .error a, .error b =>
    if h : a = b then .isTrue (by rw [h])
    else .isFalse (fun hh => by cases hh; exact h rfl)
  | .error _, .ok _ => .isFalse (fun hh => by cases hh)
  | .ok _, .error _ => .isFalse (fun hh => by cases hh)
  | .ok a, .ok b =>
    if h : a = b then .isTrue (by rw [h])
    else .isFalse (fun hh => by cases hh; exact h rfl)

/-- Embedding of the Python class `Axis` (data.py lines 57-300).
The fields mirror the private attributes `_label`, `_units`, `_index`,
`_data`, `_scaling`, `_offset`, `_size`.  `data = none` is the compact
(offset/scaling) representation; `data = some l` stores explicit values. -/
structure Axis where
  label : String
  units : String
  index : Nat
  data : Option (List ℚ)
  scaling : Option ℚ
  offset : Option ℚ
  size : Nat
deriving DecidableEq, Repr

/-- The `size` property setter (data.py 194-197): the new size is honored
only when no explicit data is stored. -/
def Axis.setSize (a : Axis) (n : Nat) : Axis :=
  if a.data = none then { a with size := n } else a

/-- The `data` property setter for a non-None 1-D array (data.py 136-143):
stores the array and sets `_size` to its length. -/
def Axis.setDataList (a : Axis) (d : List ℚ) : Axis :=
  { a with data := some d, size := d.length }

/-- The sequence `offset + scaling * np.linspace(0, n-1, n)`,
that is `offset + scaling * i` for `i = 0 .. n-1`. -/
def linspace (o s : ℚ) (n : Nat) : List ℚ :=
  (List.range n).map (fun i : ℕ => o + s * (i : ℚ))

/-- Embedding of `Axis.create_linear_data` (data.py 213-215): replaces the
axis data with the linear version through the `data` setter.  When `offset`
or `scaling` is `None` the Python expression raises a `TypeError`. -/
def Axis.create_linear_data (a : Axis) (nsteps : Nat) : Except String Axis :=
  match a.offset, a.scaling with
  | some o, some s => .ok (a.setDataList (linspace o s nsteps))
  | _, _ => .error "TypeError: unsupported operand"

/-- Embedding of `Axis.get_data` (data.py 145-146):
`return self._data if self._data is not None else self.create_linear_data(self.size)`.
The returned pair is (returned value, state of the axis after the call);
note that `create_linear_data` returns `None` in Python, so the value
component is `none` on the compact branch while the state is mutated. -/
def Axis.get_data (a : Axis) : Except String (Option (List ℚ) × Axis) :=
  match a.data with
  | some d => .ok (some d, a)
  | none => (a.create_linear_data a.size).map (fun a2 => (none, a2))

/-- A Python operand passed to `Axis.__mul__` / `Axis.__add__`: either an
instance of `numbers.Real`, or any other object (carrying an opaque tag). -/
inductive PyScalar where
  | real : ℚ → PyScalar
  | nonReal : String → PyScalar
deriving DecidableEq, Repr

/-- Embedding of `Axis.__mul__` (data.py 246-254).  The method deep-copies
`self`, so the state of `self` after the call (second component) is
unchanged.  When the operand is not a `numbers.Real`, the `isinstance`
guard fails and the function body falls through, returning Python `None`
(modelled by value `none`).  On the compact branch, multiplying a `None`
offset or scaling would raise a `TypeError`. -/
def Axis.mulOp (a : Axis) (x : PyScalar) : Except String (Option Axis) × Axis :=
  match x with
  | .real q =>
    match a.data with
    | some d => (.ok (some { a with data := some (d.map (fun v => v * q)) }), a)
    | none =>
      match a.offset, a.scaling with
      | some o, some s =>
        (.ok (some { a with offset := some (o * q), scaling := some (s * q) }), a)
      | _, _ => (.error "TypeError: unsupported operand", a)
  | .nonReal _ => (.ok none, a)

/-- Embedding of `Axis.__add__` (data.py 256-263): same shape as `__mul__`,
but only the offset is shifted on the compact branch. -/
def Axis.addOp (a : Axis) (x : PyScalar) : Except String (Option Axis) × Axis :=
  match x with
  | .real q =>
    match a.data with
    | some d => (.ok (some { a with data := some (d.map (fun v => v + q)) }), a)
    | none =>
      match a.offset with
      | some o => (.ok (some { a with offset := some (o + q) }), a)
      | none => (.error "TypeError: unsupported operand", a)
  | .nonReal _ => (.ok none, a)

/-- Model of `np.mean` on a 1-D array.  On an empty array numpy produces
`nan` (with a warning); that degenerate case is modelled as an error. -/
def npMean (l : List ℚ) : Except String ℚ :=
  match l with
  | [] => .error "nan: mean of empty array"
  | _ => .ok (l.sum / (l.length : ℚ))

/-- Model of `np.min` on a 1-D array; raises `ValueError` on an empty array. -/
def npMin (l : List ℚ) : Except String ℚ :=
  match l with
  | [] => .error "ValueError: zero-size array"
  | x :: xs => .ok (xs.foldl min x)

/-- Model of `np.max` on a 1-D array; raises `ValueError` on an empty array. -/
def npMax (l : List ℚ) : Except String ℚ :=
  match l with
  | [] => .error "ValueError: zero-size array"
  | x :: xs => .ok (xs.foldl max x)

/-- Embedding of `Axis.mean` (data.py 277-281): explicit branch uses
`np.mean`, compact branch returns `offset + size / 2 * scaling`
(a `None` offset or scaling would raise a `TypeError`). -/
def Axis.mean (a : Axis) : Except String ℚ :=
  match a.data with
  | some d => npMean d
  | none =>
    match a.offset, a.scaling with
    | some o, some s => .ok (o + (a.size : ℚ) / 2 * s)
    | _, _ => .error "TypeError: unsupported operand"

/-- Embedding of `Axis.min` (data.py 283-287): compact branch returns
`offset + (size * scaling if scaling < 0 else 0)`. -/
def Axis.min (a : Axis) : Except String ℚ :=
  match a.data with
  | some d => npMin d
  | none =>
    match a.offset, a.scaling with
    | some o, some s => .ok (o + (if s < 0 then (a.size : ℚ) * s else 0))
    | _, _ => .error "TypeError: unsupported operand"

/-- Embedding of `Axis.max` (data.py 289-293): compact branch returns
`offset + (size * scaling if scaling > 0 else 0)`. -/
def Axis.max (a : Axis) : Except String ℚ :=
  match a.data with
  | some d => npMax d
  | none =>
    match a.offset, a.scaling with
    | some o, some s => .ok (o + (if s > 0 then (a.size : ℚ) * s else 0))
    | _, _ => .error "TypeError: unsupported operand"

/-- The concrete compact axis used for claim C1: offset 0, scaling 1,
size 3.  It is reachable in Python as `Axis(data=np.array([0., 1., 2.]))`,
whose linear data collapses to this compact form at construction. -/
def axisC1 : Axis :=
  { label := "", units := "", index := 0, data := none,
    scaling := some 1, offset := some 0, size := 3 }

/-- The concrete compact axis used for claim C7: offset 0, scaling 1,
size 2, reachable as `Axis(data=np.array([0., 1.]))`. -/
def axisC7 : Axis :=
  { label := "", units := "", index := 0, data := none,
    scaling := some 1, offset := some 0, size := 2 }

/-- Embedding of the Python class `AxesManager` (data.py 624-882).
Fields mirror `_data_shape`, `_axes`, `_nav_indexes` and `_sig_indexes`
(tuples become lists; a `None` `nav_indexes` would make the constructor
raise, so callers always pass a tuple and the field is a plain list). -/
structure AxesManager where
  data_shape : List Nat
  axes : List Axis
  nav_indexes : List Nat
  sig_indexes : List Nat
deriving DecidableEq, Repr

/-- Removes the first element satisfying the predicate, the effect of
`l.pop(l.index(x))` in Python. -/
def eraseFirstP {α : Type} (p : α → Bool) : List α → List α
  | [] => []
  | x :: xs => if p x then xs else x :: eraseFirstP p xs

/-- Embedding of `AxesManager.compute_sig_indexes` (data.py 634-640):
starts from `list(np.arange(len(data_shape)))` and pops the first
occurrence of each navigation index that is present. -/
def computeSigIndexes (shapeLen : Nat) (nav : List Nat) : List Nat :=
  nav.foldl
    (fun acc i => if i ∈ acc then eraseFirstP (fun j => j == i) acc else acc)
    (List.range shapeLen)

/-- Embedding of `AxesManager.get_shape_from_index` (data.py 792-796).
The Python guard `index > len(shape) or index < 0` raises `IndexError`;
for `index == len(shape)` the guard passes but the tuple access itself
raises `IndexError`, so every out-of-range index is an error. -/
def getShapeFromIndex (shape : List Nat) (index : Nat) : Except String Nat :=
  match shape.get? index with
  | some v => .ok v
  | none => .error "IndexError: index does not correspond to any data dimension"

/-- Embedding of `AxesManager.get_axes_index` (data.py 817-819). -/
def getAxesIndex (m : AxesManager) : List Nat :=
  m.axes.map (fun a => a.index)

/-- One iteration of the loop in `AxesManager._check_axis` (data.py 798-815):
when the stored size disagrees with the data shape at the axis index, the
repair assigns `axis.size` (honored only without explicit data), then sets
`axis.scaling = 1` and `axis.offset = 0`. -/
def repairAxis (shp : Nat) (a : Axis) : Axis :=
  if shp ≠ a.size then { a.setSize shp with scaling := some 1, offset := some 0 }
  else a

/-- Embedding of the loop of `AxesManager._check_axis` over a list of axes;
the `isinstance(axis, Axis)` type check always passes in the typed model.
An axis index outside the shape raises `IndexError` through
`get_shape_from_index`. -/
def checkAxis (shape : List Nat) : List Axis → Except String (List Axis)
  | [] => .ok []
  | a :: rest => do
    let shp ← getShapeFromIndex shape a.index
    let rest2 ← checkAxis shape rest
    .ok (repairAxis shp a :: rest2)

/-- Embedding of `AxesManager.__init__` (data.py 625-632): stores the
shape and axes, stores `nav_indexes` verbatim (no setter validation),
computes `sig_indexes` when not supplied, then runs `_check_axis`.
`_manage_named_axes` with no extra keyword arguments is a no-op and is
not modelled. -/
def mkAxesManager (data_shape : List Nat) (axes : List Axis)
    (nav_indexes : List Nat) (sig_indexes : Option (List Nat)) :
    Except String AxesManager :=
  let sig := match sig_indexes with
    | some s => s
    | none => computeSigIndexes data_shape.length nav_indexes
  (checkAxis data_shape axes).map
    (fun axes2 => { data_shape := data_shape, axes := axes2,
                    nav_indexes := nav_indexes, sig_indexes := sig })

/-- Embedding of the `axes` property setter (data.py 655-658). -/
def setAxes (m : AxesManager) (axes : List Axis) : Except String AxesManager :=
  (checkAxis m.data_shape axes).map (fun axes2 => { m with axes := axes2 })

/-- Embedding of `AxesManager.append_axis` (data.py 724-726).  Note that
`_check_axis([axis])` ends with `self._axes = axes` where `axes` is the
one-element list that was passed in, so the final axes list holds only
the repaired appended axis.  When `_check_axis` raises, the Python object
keeps the appended list; the error path state is not modelled. -/
def appendAxis (m : AxesManager) (ax : Axis) : Except String AxesManager :=
  (checkAxis m.data_shape [ax]).map (fun axes2 => { m with axes := axes2 })

/-- Embedding of the `sig_indexes` property setter (data.py 753-772):
the assignment is applied only when every proposed index avoids
`nav_indexes` and occurs among the declared axes indices; otherwise only
a warning is logged and the state is kept. -/
def setSigIndexes (m : AxesManager) (sig : List Nat) : AxesManager :=
  if ∀ i ∈ sig, i ∉ m.nav_indexes ∧ i ∈ getAxesIndex m then
    { m with sig_indexes := sig }
  else m

/-- Embedding of the `nav_indexes` property setter (data.py 732-747):
the tuple is stored only when every proposed index occurs among the
declared axes indices; in every case the setter then reassigns
`sig_indexes` to `compute_sig_indexes()` through the `sig_indexes`
setter (the input is always an iterable in the model, so the
non-iterable warning branch is not taken). -/
def setNavIndexes (m : AxesManager) (nav : List Nat) : AxesManager :=
  let m1 := if ∀ i ∈ nav, i ∈ getAxesIndex m then { m with nav_indexes := nav } else m
  setSigIndexes m1 (computeSigIndexes m1.data_shape.length m1.nav_indexes)

/-- The axis with explicit non-linear data used for the C2 counterexample:
reachable as `Axis(data=np.array([0., 1., 3.]))` (the differences are not
constant, so the data is kept explicit and `_size = 3`). -/
def axisC2 : Axis :=
  { label := "", units := "", index := 0, data := some [0, 1, 3],
    scaling := none, offset := none, size := 3 }

/-- Compact axis of index 0 and size 3 used for the C4 counterexample. -/
def axisC4a : Axis :=
  { label := "", units := "", index := 0, data := none,
    scaling := some 1, offset := some 0, size := 3 }

/-- Compact axis of index 1 and size 4 used for the C4 counterexample. -/
def axisC4b : Axis :=
  { label := "", units := "", index := 1, data := none,
    scaling := some 1, offset := some 0, size := 4 }

/-- The manager state produced by
`AxesManager(data_shape=(3, 4), axes=[axisC4a, axisC4b], nav_indexes=(0,), sig_indexes=())`. -/
def mgrC4 : AxesManager :=
  { data_shape := [3, 4], axes := [axisC4a, axisC4b],
    nav_indexes := [0], sig_indexes := [] }

/-- Enum `DataDim` (data.py 37-42). -/
inductive DataDim where
  | Data0D
  | Data1D
  | Data2D
  | DataND
deriving DecidableEq, Repr

/-- Enum `DataSource` (data.py 45-48). -/
inductive DataSource where
  | raw
  | calculated
deriving DecidableEq, Repr

/-- Enum `DataDistribution` (data.py 51-54). -/
inductive DataDistribution where
  | uniform
  | spread
deriving DecidableEq, Repr

/-- A numpy n-dimensional array: its shape and its values flattened in row
major order. -/
structure NArray where
  shape : List Nat
  flat : List ℚ
deriving DecidableEq, Repr

/-- The numpy `size` attribute, the product of the shape. -/
def NArray.size (a : NArray) : Nat := a.shape.prod

/-- Embedding of the Python class `DataBase` (data.py 334-621).  The fields
mirror `_name`, `origin`, `_source`, `_distribution`, `_dim`, `_data`,
`_shape`, `_size`, `_length` and `_labels`.  `DataWithAxes` members stored
inside a `DataToExport` are represented by this structure as well, because
every operation of the claims below only touches `DataBase` level fields. -/
structure DataBase where
  name : String
  origin : Option String
  source : DataSource
  distribution : DataDistribution
  dim : DataDim
  dataList : List NArray
  shape : List Nat
  size : Nat
  length : Nat
  labels : List String
deriving DecidableEq, Repr

/-- Two-digit channel label `CH00`, `CH01`, ... produced by
`DataBase._check_labels` (data.py 537-540). -/
def chLabel (i : Nat) : String :=
  "CH" ++ (if i < 10 then "0" else "") ++ toString i

/-- Embedding of `DataBase._check_labels`: pads the label list with
generated channel names until it reaches the data length. -/
def padLabels (labels : List String) (length : Nat) : List String :=
  labels ++ ((List.range length).drop labels.length).map chLabel

/-- The dimensionality derivation of `DataBase.get_dim_from_data`
(data.py 578-591), as a function of the common shape and size. -/
def dimFromShape (shape : List Nat) (size : Nat) : DataDim :=
  if shape.length = 1 ∧ size = 1 then .Data0D
  else if shape.length = 1 ∧ size > 1 then .Data1D
  else if shape.length = 2 then .Data2D
  else .DataND

/-- Embedding of `DataBase.__init__` (data.py 361-385) restricted to a
payload that is already a list of arrays (the scalar and bare-array
coercion shims of `_check_data_type` are not needed by the claims):
`_check_data_type` rejects an empty list and a 0-dimensional first array;
`_check_shape_dim_consistency` derives `dim` from the first array and
overrides any supplied `dim` that disagrees; `_check_same_shape` raises
`DataShapeError` when some array has a different shape; `_check_labels`
pads the labels. -/
def mkDataBase (name : String) (source : DataSource) (dim : Option DataDim)
    (distribution : DataDistribution) (data : List NArray)
    (labels : List String) (origin : Option String) :
    Except String DataBase :=
  match data with
  | [] => .error "TypeError: Data should be a non-empty list of non-empty numpy arrays"
  | d0 :: _ =>
    if d0.shape.length = 0 then
      .error "TypeError: Data should be a non-empty list of non-empty numpy arrays"
    else
      let shape := d0.shape
      let size := d0.size
      let length := data.length
      let derived := dimFromShape shape size
      let dimF := match dim with
        | none => derived
        | some dgiven => if dgiven ≠ derived then derived else dgiven
      if ∀ arr ∈ data, arr.shape = shape then
        .ok { name := name, origin := origin, source := source,
              distribution := distribution, dim := dimF, dataList := data,
              shape := shape, size := size, length := length,
              labels := padLabels labels length }
      else .error "DataShapeError: The shape of the ndarrays in data is not the same"

/-- Model of `np.allclose` between two arrays of the same shape: with exact
rational arithmetic standing in for floating point, closeness is equality
of the flattened values. -/
def allclose (x y : List ℚ) : Bool := x == y

/-- The element-wise comparison loop of `DataBase.__eq__` (data.py 472-477):
for each pair, a shape mismatch makes the result false, otherwise the
values are compared with `np.allclose`. -/
def eqArrays : List NArray → List NArray → Bool
  | [], [] => true
  | x :: xs, y :: ys => x.shape == y.shape && allclose x.flat y.flat && eqArrays xs ys
  | _, _ => false

/-- Embedding of `DataBase.__eq__` (data.py 468-480) between two data
objects: same name, same length, and all arrays pairwise close. -/
def dbEq (a b : DataBase) : Bool :=
  a.name == b.name && a.length == b.length && eqArrays a.dataList b.dataList

/-- The loop of `DataBase.__add__` (data.py 429-439): for each pair of
arrays, a shape mismatch raises `ValueError`; the sum is written back
through `__setitem__` (data.py 423-427), which checks the new array shape
against the container shape `shp` and raises `IndexError` otherwise. -/
def addArraysChecked : List NArray → List NArray → List Nat → Except String (List NArray)
  | [], [], _ => .ok []
  | x :: xs, y :: ys, shp =>
    if x.shape ≠ y.shape then
      .error "ValueError: The shapes of arrays stored into the data are not consistent"
    else
      let z : NArray := { shape := x.shape, flat := x.flat.zipWith (fun u v => u + v) y.flat }
      if z.shape = shp then (addArraysChecked xs ys shp).map (fun l => z :: l)
      else .error "IndexError: The index should be a positive integer lower than the data length"
  | _, _, _ => .error "IndexError: The index should be a positive integer lower than the data length"

/-- The loop of `DataBase.__sub__` (data.py 441-449): no per-pair shape
check is made before subtracting; numpy subtraction is modelled for
equal shapes only (the claims never subtract differing shapes, where
numpy would broadcast or raise), and the result goes through the same
`__setitem__` shape check. -/
def subArraysChecked : List NArray → List NArray → List Nat → Except String (List NArray)
  | [], [], _ => .ok []
  | x :: xs, y :: ys, shp =>
    if x.shape ≠ y.shape then
      .error "numpy broadcasting between differing shapes is not modelled"
    else
      let z : NArray := { shape := x.shape, flat := x.flat.zipWith (fun u v => u - v) y.flat }
      if z.shape = shp then (subArraysChecked xs ys shp).map (fun l => z :: l)
      else .error "IndexError: The index should be a positive integer lower than the data length"
  | _, _, _ => .error "IndexError: The index should be a positive integer lower than the data length"

/-- Embedding of `DataBase.__add__` (data.py 429-439): requires equal
lengths (`TypeError` otherwise), deep-copies `self` and replaces the
payload element-wise. -/
def dbAdd (a b : DataBase) : Except String DataBase :=
  if a.length = b.length then
    (addArraysChecked a.dataList b.dataList a.shape).map
      (fun l => { a with dataList := l })
  else .error "TypeError: Could not add data of a different length"

/-- Embedding of `DataBase.__sub__` (data.py 441-449). -/
def dbSub (a b : DataBase) : Except String DataBase :=
  if a.length = b.length then
    (subArraysChecked a.dataList b.dataList a.shape).map
      (fun l => { a with dataList := l })
  else .error "TypeError: Could not substract data of a different length"

/-- Well-formedness of a `DataBase` state as established by the
constructor: the `length` field counts the stored arrays, and every array
has the common shape with a flat list of matching size. -/
def DataBase.WF (db : DataBase) : Prop :=
  db.length = db.dataList.length ∧
  ∀ arr ∈ db.dataList, arr.shape = db.shape ∧ arr.flat.length = arr.shape.prod

/-- Embedding of the Python class `DataToExport` (data.py 1369-1668):
an identifier plus the stored list of data objects. -/
structure DataToExport where
  name : String
  dataList : List DataBase
deriving DecidableEq, Repr

/-- Embedding of `DataToExport.affect_name_to_origin_if_none`
(data.py 1408-1412). -/
def affectNameToOriginIfNone (name : String) (l : List DataBase) : List DataBase :=
  l.map (fun d => if d.origin = none then { d with origin := some name } else d)

/-- Embedding of the `data` property setter of `DataToExport`
(data.py 1630-1637): shallow-copies the list (value semantics here) and
then assigns the collection name to every member without an origin. -/
def DataToExport.setData (d : DataToExport) (new : List DataBase) : DataToExport :=
  { d with dataList := affectNameToOriginIfNone d.name new }

/-- Embedding of `DataToExport.__init__` (data.py 1390-1406): starts from
an empty list and assigns the given data through the `data` setter. -/
def mkDataToExport (name : String) (data : List DataBase) : DataToExport :=
  DataToExport.setData { name := name, dataList := [] } data

/-- Modelled from the spec: `find_objects_in_list_from_attr_name_val` from
`pymodaq.utils.daq_utils` is not under src.  Following the spec lookup
contract (pure read filter returning the data matching the given name),
this returns the first member whose `name` attribute equals the value. -/
def findFirstByName (l : List DataBase) (name : String) : Option DataBase :=
  l.find? (fun d => d.name == name)

/-- Modelled from the spec: the `return_first=False` form of the missing
`find_objects_in_list_from_attr_name_val` helper, returning all members
whose `name` attribute equals the value, in list order. -/
def findAllByName (l : List DataBase) (name : String) : List DataBase :=
  l.filter (fun d => d.name == name)

/-- Modelled from the spec: the missing helper applied to the `origin`
attribute, returning the first member whose `origin` equals the value. -/
def findFirstByOrigin (l : List DataBase) (origin : Option String) : Option DataBase :=
  l.find? (fun d => d.origin == origin)

/-- Embedding of `DataToExport.get_data_from_name_origin` (data.py
1585-1593): with no origin, the first member matching the name; with an
origin, the members matching the name are filtered first and the first
of those matching the origin is returned. -/
def getDataFromNameOrigin (l : List DataBase) (name : String)
    (origin : Option String) : Option DataBase :=
  match origin with
  | none => findFirstByName l name
  | some _ => findFirstByOrigin (findAllByName l name) origin

/-- Embedding of the single-object overload of `DataToExport.append`
(data.py 1650-1662): deep-copies the argument (identity under value
semantics), looks up an existing member with the same name and origin,
and when one is found removes `self.data[self.data.index(obj)]` — note
that `list.index` compares with `DataBase.__eq__`, so the first member
that compares equal to the found object is removed — then appends the
copy at the end.  When the lookup found an object, it is a member of the
list and equality is reflexive, so the `ValueError` branch of
`list.index` is unreachable. -/
def DataToExport.appendOne (d : DataToExport) (x : DataBase) : DataToExport :=
  match getDataFromNameOrigin d.dataList x.name x.origin with
  | some obj => { d with dataList := eraseFirstP (fun e => dbEq e obj) d.dataList ++ [x] }
  | none => { d with dataList := d.dataList ++ [x] }

/-- The repaired version of `axisC2` as produced by `_check_axis`: the size
assignment is ignored (explicit data is stored) but scaling and offset are
overwritten. -/
def axisC2repaired : Axis := { axisC2 with scaling := some 1, offset := some 0 }

/-- The manager state produced by
`AxesManager(data_shape=(5,), axes=[axisC2])`. -/
def mgrC2 : AxesManager :=
  { data_shape := [5], axes := [axisC2repaired], nav_indexes := [], sig_indexes := [0] }

/-- A member of a `DataToExport` for claim C3: name `n`, origin `o1`,
payload one zero array of shape `(2,)`. -/
def m1C3 : DataBase :=
  { name := "n", origin := some "o1", source := .raw, distribution := .uniform,
    dim := .Data1D, dataList := [{ shape := [2], flat := [0, 0] }],
    shape := [2], size := 2, length := 1, labels := ["CH00"] }

/-- Same name and payload as `m1C3` but origin `o2`. -/
def m2C3 : DataBase := { m1C3 with origin := some "o2" }

/-- The appended object for claim C3: same name and origin as `m2C3` but a
different payload. -/
def xC3 : DataBase :=
  { m1C3 with origin := some "o2", dataList := [{ shape := [2], flat := [1, 1] }] }

/-- An empty collection used by the C3 witness. -/
def dteC3w : DataToExport := mkDataToExport "dtew" []

/-- A data object without an origin, used for claim C5. -/
def xC5 : DataBase :=
  { name := "xdata", origin := none, source := .raw, distribution := .uniform,
    dim := .Data0D, dataList := [{ shape := [1], flat := [5] }],
    shape := [1], size := 1, length := 1, labels := ["CH00"] }

/-- The result of `DataBase(name='d', data=[np.array([7.])])`, used by the
C6 witness. -/
def dbC6 : DataBase :=
  { name := "d", origin := none, source := .raw, distribution := .uniform,
    dim := .Data0D, dataList := [{ shape := [1], flat := [7] }],
    shape := [1], size := 1, length := 1, labels := ["CH00"] }

/-- A one-array data object used by the C8 witness. -/
def dbC8a : DataBase :=
  { name := "a", origin := none, source := .raw, distribution := .uniform,
    dim := .Data1D, dataList := [{ shape := [2], flat := [1, 2] }],
    shape := [2], size := 2, length := 1, labels := ["CH00"] }

/-- A second one-array data object of the same shape, for the C8 witness. -/
def dbC8b : DataBase :=
  { dbC8a with name := "b", dataList := [{ shape := [2], flat := [3, 4] }] }

/-- A compact axis of index 0 and size 3 used by the C9 witness. -/
def axisC9 : Axis :=
  { label := "", units := "", index := 0, data := none,
    scaling := some 1, offset := some 0, size := 3 }

/-! Theorems.  Each claim of the specification review is settled by one
main theorem below; counterexample theorems evaluate the embedded code at
explicit concrete inputs. -/

/-- C1: on a compact axis (offset 0, scaling 1, size 3, no explicit data),
`get_data()` evaluates to Python `None` as its returned value (because
`create_linear_data` has no return statement), and the call stores the
materialized array `[0, 1, 2]` in the axis, so the stored representation
is mutated — contradicting the claim that the materialized sequence is
returned and the axis still holds no explicit data afterwards.  On an
axis with explicit data the claim holds (the array is returned). -/
theorem get_data_compact_bug :
    axisC1.get_data = Except.ok (none, { axisC1 with data := some [0, 1, 2] }) ∧
    axisC1.data = none ∧
    ({ axisC1 with data := some [0, 1, 2] } : Axis).data ≠ none ∧
    (∀ a : Axis, ∀ d : List ℚ, a.data = some d → a.get_data = Except.ok (some d, a)) := by
  have h3 : linspace 0 1 3 = [0, 1, 2] := by
    norm_num [linspace, List.range_succ]
  refine ⟨?_, rfl, by decide, ?_⟩
  · simp [Axis.get_data, Axis.create_linear_data, Axis.setDataList, axisC1, h3, Except.map]
  · intro a d h
    simp [Axis.get_data, h]

/-- C10: multiplying or adding an `Axis` with an operand that is not a
`numbers.Real` returns Python `None` (no exception, no new axis), and the
axis itself is left unchanged (second component of the state-passing
embedding). -/
theorem axis_mul_add_nonreal_none (a : Axis) (tag : String) :
    a.mulOp (PyScalar.nonReal tag) = (Except.ok none, a) ∧
    a.addOp (PyScalar.nonReal tag) = (Except.ok none, a) :=
  ⟨rfl, rfl⟩

/-- C2 counterexample: constructing an `AxesManager` with shape `(5,)` and
an axis holding explicit non-linear data `[0, 1, 3]` of size 3 succeeds,
but the resulting axis still has size 3 while `data_shape[axis.index]` is
5: the repair of `_check_axis` assigns `axis.size` through a setter that
ignores the assignment when explicit data is stored, so the claimed
invariant `axis.size == data_shape[axis.index]` fails. -/
theorem check_axis_mismatch_counterexample :
    mkAxesManager [5] [axisC2] [] none = Except.ok mgrC2 ∧
    mgrC2.axes = [axisC2repaired] ∧
    axisC2repaired.data = some [0, 1, 3] ∧
    axisC2repaired.size = 3 ∧
    mgrC2.data_shape.get? axisC2repaired.index = some 5 ∧
    (3 : Nat) ≠ 5 := by
  decide

/-- C4 counterexample: `mgrC4` is reachable by construction with
`sig_indexes=()`; assigning `nav_indexes = (5,)` is rejected (5 is not
among the axes indices) and `nav_indexes` keeps its old value `(0,)`, but
the setter still reassigns `sig_indexes`, which changes from `()` to
`(1,)` — so the prior state is not unchanged, contradicting the claim. -/
theorem nav_setter_recomputes_sig_counterexample :
    mkAxesManager [3, 4] [axisC4a, axisC4b] [0] (some []) = Except.ok mgrC4 ∧
    mgrC4.sig_indexes = [] ∧
    (setNavIndexes mgrC4 [5]).nav_indexes = mgrC4.nav_indexes ∧
    (setNavIndexes mgrC4 [5]).sig_indexes = [1] ∧
    ([1] : List Nat) ≠ [] := by
  decide

/-- C3 counterexample: with two stored members of the same name `n` and
equal payloads but different origins `o1` and `o2`, appending a third
object with the pair `(n, o2)` removes the member with origin `o1` (the
first member that compares equal, under `DataBase.__eq__`, to the one
found by `(name, origin)` lookup) instead of the member with origin `o2`;
the claimed replaced member `m2C3` survives.  List length is preserved. -/
theorem dte_append_replaces_wrong_member :
    (((mkDataToExport "dte" []).appendOne m1C3).appendOne m2C3).dataList = [m1C3, m2C3] ∧
    ((((mkDataToExport "dte" []).appendOne m1C3).appendOne m2C3).appendOne xC3).dataList
      = [m2C3, xC3] ∧
    m2C3.origin = xC3.origin ∧
    m1C3.origin ≠ xC3.origin ∧
    m1C3 ≠ m2C3 := by
  decide

/-- C5 counterexample: appending a data object with unset origin to the
collection named `dte` leaves the stored member with `origin = None`, not
`origin = 'dte'`: `append` never calls
`affect_name_to_origin_if_none` (only the `data` property setter does). -/
theorem append_keeps_origin_none_counterexample :
    ((mkDataToExport "dte" []).appendOne xC5).dataList.map (fun m => m.origin) = [none] ∧
    (mkDataToExport "dte" []).name = "dte" ∧
    ((none : Option String) ≠ some "dte") := by
  decide

/-- C7 counterexample: on the compact axis with offset 0, scaling 1 and
size 2 (virtual sequence `[0, 1]`), the code computes `mean() = 1` and
`max() = 2`, while the mean and maximum of the virtual sequence are `1/2`
and `1` — so the closed forms do not equal the statistics of the
sequence `offset + scaling*i`, `i = 0..size-1`. -/
theorem compact_stats_counterexample :
    Axis.mean axisC7 = Except.ok 1 ∧
    npMean (linspace 0 1 2) = Except.ok (1 / 2) ∧
    Axis.max axisC7 = Except.ok 2 ∧
    npMax (linspace 0 1 2) = Except.ok 1 ∧
    (Except.ok (1 : ℚ) ≠ (Except.ok (1 / 2 : ℚ) : Except String ℚ)) ∧
    (Except.ok (2 : ℚ) ≠ (Except.ok (1 : ℚ) : Except String ℚ)) := by
  have h2 : linspace 0 1 2 = [0, 1] := by
    norm_num [linspace, List.range_succ]
  refine ⟨?_, ?_, ?_, ?_, ?_, ?_⟩
  · simp [Axis.mean, axisC7]
  · simp [npMean, h2]
  · simp [Axis.max, axisC7]
  · simp [npMax, h2]
  · intro h
    have := Except.ok.inj h
    norm_num at this
  · intro h
    have := Except.ok.inj h
    norm_num at this

/-- Characterization of one repair step of `_check_axis`: the index and
the stored data are never touched; the size becomes the shape entry when
no explicit data is stored, and is kept otherwise. -/
theorem repairAxis_spec (shp : Nat) (a : Axis) :
    (repairAxis shp a).index = a.index ∧
    (repairAxis shp a).data = a.data ∧
    ((repairAxis shp a).data = none → (repairAxis shp a).size = shp) ∧
    ((repairAxis shp a).data ≠ none → (repairAxis shp a).size = a.size) := by
  unfold repairAxis Axis.setSize
  by_cases h1 : shp ≠ a.size
  · rw [if_pos h1]
    by_cases h2 : a.data = none
    · rw [if_pos h2]
      simp [h2]
    · rw [if_neg h2]
      simp [h2]
  · rw [if_neg h1]
    push_neg at h1
    exact ⟨rfl, rfl, fun _ => h1.symm, fun _ => rfl⟩

/-- Characterization of the `_check_axis` loop: when every axis index is
within the shape bounds the check succeeds, every produced axis that holds
no explicit data has its size equal to the shape entry at its index, and
every produced axis with explicit data keeps the data and size of the
corresponding input axis. -/
theorem checkAxis_ok (shape : List Nat) :
    ∀ axes : List Axis, (∀ a ∈ axes, a.index < shape.length) →
    ∃ axes2, checkAxis shape axes = .ok axes2 ∧
      axes2.length = axes.length ∧
      (∀ a ∈ axes2, a.data = none → shape.get? a.index = some a.size) ∧
      (∀ a ∈ axes2, a.data ≠ none → ∃ a0 ∈ axes, a.data = a0.data ∧ a.size = a0.size) := by
  intro axes
  induction axes with
  | nil =>
    intro _
    exact ⟨[], rfl, rfl, by simp, by simp⟩
  | cons a rest ih =>
    intro h
    have ha : a.index < shape.length := h a (List.mem_cons_self a rest)
    obtain ⟨v, hv⟩ : ∃ v, shape.get? a.index = some v := by
      cases hg : shape.get? a.index with
      | none => exact absurd (List.get?_eq_none.mp hg) (by omega)
      | some v => exact ⟨v, rfl⟩
    obtain ⟨rest2, hrest, hlen, hc, he⟩ := ih (fun x hx => h x (List.mem_cons_of_mem _ hx))
    obtain ⟨hidx, hdata, hnone, hsome⟩ := repairAxis_spec v a
    refine ⟨repairAxis v a :: rest2, ?_, by simp [hlen], ?_, ?_⟩
    · rw [List.get?_eq_getElem?] at hv
      simp [checkAxis, getShapeFromIndex, hv, hrest, Except.bind, Bind.bind]
    · intro a2 ha2 hd
      rcases List.mem_cons.mp ha2 with h1 | h1
      · subst h1
        rw [hidx, hv, hnone hd]
      · exact hc a2 h1 hd
    · intro a2 ha2 hd
      rcases List.mem_cons.mp ha2 with h1 | h1
      · subst h1
        exact ⟨a, List.mem_cons_self a rest, hdata, hsome hd⟩
      · obtain ⟨a0, ha0, h2, h3⟩ := he a2 h1 hd
        exact ⟨a0, List.mem_cons_of_mem _ ha0, h2, h3⟩

/-- C2 (amended): when every axis index is within the shape bounds,
construction, axes assignment and `append_axis` never raise, and the size
repair of `_check_axis` establishes `axis.size == data_shape[axis.index]`
exactly for the axes that hold no explicit data; an axis with explicit
data keeps its data and its (possibly disagreeing) size, because the
`size` setter ignores the assignment when explicit data is stored —
only its scaling and offset are overwritten. -/
theorem axesManager_compact_size_invariant (shape : List Nat) (axes : List Axis)
    (nav : List Nat) (sig : Option (List Nat))
    (h : ∀ a ∈ axes, a.index < shape.length) :
    (∃ m, mkAxesManager shape axes nav sig = .ok m ∧
      (∀ a ∈ m.axes, a.data = none → shape.get? a.index = some a.size) ∧
      (∀ a ∈ m.axes, a.data ≠ none → ∃ a0 ∈ axes, a.data = a0.data ∧ a.size = a0.size)) ∧
    (∀ m0 : AxesManager, m0.data_shape = shape →
      ∃ m1, setAxes m0 axes = .ok m1 ∧
        ∀ a ∈ m1.axes, a.data = none → shape.get? a.index = some a.size) ∧
    (∀ m0 : AxesManager, m0.data_shape = shape → ∀ ax : Axis, ax.index < shape.length →
      ∃ m1, appendAxis m0 ax = .ok m1 ∧
        ∀ a ∈ m1.axes, a.data = none → shape.get? a.index = some a.size) := by
  obtain ⟨axes2, hax, -, hc, he⟩ := checkAxis_ok shape axes h
  have hm : mkAxesManager shape axes nav sig =
      .ok { data_shape := shape, axes := axes2, nav_indexes := nav,
            sig_indexes := match sig with
              | some s => s
              | none => computeSigIndexes shape.length nav } := by
    simp [mkAxesManager, hax, Except.map]
  refine ⟨⟨_, hm, hc, he⟩, ?_, ?_⟩
  · intro m0 hm0
    have hm1 : setAxes m0 axes = .ok { m0 with axes := axes2 } := by
      simp [setAxes, hm0, hax, Except.map]
    exact ⟨_, hm1, hc⟩
  · intro m0 hm0 ax hax1
    obtain ⟨axes3, hax3, -, hc3, -⟩ := checkAxis_ok shape [ax] (by simpa using hax1)
    have hm1 : appendAxis m0 ax = .ok { m0 with axes := axes3 } := by
      simp [appendAxis, hm0, hax3, Except.map]
    exact ⟨_, hm1, hc3⟩

/-- C2 witness: the amended theorem applied to shape `(5,)` and the
explicit-data axis `axisC2` of mismatched size. -/
theorem axesManager_compact_size_invariant_witness :
    ∃ m, mkAxesManager [5] [axisC2] [] none = Except.ok m ∧
      (∀ a ∈ m.axes, a.data = none → ([5] : List Nat).get? a.index = some a.size) ∧
      (∀ a ∈ m.axes, a.data ≠ none → ∃ a0 ∈ [axisC2], a.data = a0.data ∧ a.size = a0.size) :=
  (axesManager_compact_size_invariant [5] [axisC2] [] none (by decide)).1

/-- C9: constructing an `AxesManager` with a `nav_indexes` tuple holding
an index with no corresponding declared axis succeeds (given axis indices
within the shape bounds) and stores the tuple verbatim: `__init__` writes
`_nav_indexes` directly and never invokes the validating setter. -/
theorem mkAxesManager_no_nav_validation (shape : List Nat) (axes : List Axis)
    (nav : List Nat) (sig : Option (List Nat))
    (h : ∀ a ∈ axes, a.index < shape.length)
    (_hinvalid : ∃ i ∈ nav, i ∉ axes.map Axis.index) :
    ∃ m, mkAxesManager shape axes nav sig = .ok m ∧ m.nav_indexes = nav := by
  obtain ⟨axes2, hax, -, -, -⟩ := checkAxis_ok shape axes h
  have hm : mkAxesManager shape axes nav sig =
      .ok { data_shape := shape, axes := axes2, nav_indexes := nav,
            sig_indexes := match sig with
              | some s => s
              | none => computeSigIndexes shape.length nav } := by
    simp [mkAxesManager, hax, Except.map]
  exact ⟨_, hm, rfl⟩

/-- C9 witness: construction with `nav_indexes=(7,)` while the only
declared axis has index 0. -/
theorem mkAxesManager_no_nav_validation_witness :
    ∃ m, mkAxesManager [3] [axisC9] [7] none = Except.ok m ∧ m.nav_indexes = [7] :=
  mkAxesManager_no_nav_validation [3] [axisC9] [7] none (by decide) ⟨7, by decide, by decide⟩

/-- On a duplicate-free list, removing the first occurrence of `i` is the
same as filtering `i` out. -/
theorem eraseFirstP_beq_eq_filter (i : Nat) :
    ∀ l : List Nat, l.Nodup →
      eraseFirstP (fun j => j == i) l = l.filter (fun j => decide (j ≠ i)) := by
  intro l
  induction l with
  | nil => intro _; rfl
  | cons x xs ih =>
    intro h
    rw [List.nodup_cons] at h
    by_cases hx : x = i
    · subst hx
      have hall : ∀ j ∈ xs, (!decide (j = x)) = true := by
        intro j hj
        have hne : j ≠ x := fun e => h.1 (e ▸ hj)
        simp [hne]
      simp [eraseFirstP, List.filter_cons]
      exact (List.filter_eq_self.mpr hall).symm
    · have hb : (x == i) = false := beq_false_of_ne hx
      simp [eraseFirstP, hb, List.filter_cons, hx, ih h.2]

/-- The loop of `compute_sig_indexes` computes the complement: starting
from the duplicate-free `range`, removing the first occurrence of each
present navigation index leaves exactly the dimension indices that are
not navigation indices, in order. -/
theorem computeSigIndexes_eq_filter (shapeLen : Nat) (nav : List Nat) :
    computeSigIndexes shapeLen nav
      = (List.range shapeLen).filter (fun j => decide (j ∉ nav)) := by
  suffices h : ∀ (nav acc : List Nat), acc.Nodup →
      nav.foldl (fun acc i => if i ∈ acc then eraseFirstP (fun j => j == i) acc else acc) acc
        = acc.filter (fun j => decide (j ∉ nav)) from
    h nav _ (List.nodup_range shapeLen)
  intro nav
  induction nav with
  | nil =>
    intro acc _
    simp
  | cons i rest ih =>
    intro acc hacc
    rw [List.foldl_cons]
    have hstep : (if i ∈ acc then eraseFirstP (fun j => j == i) acc else acc)
        = acc.filter (fun j => decide (j ≠ i)) := by
      by_cases hi : i ∈ acc
      · rw [if_pos hi]
        exact eraseFirstP_beq_eq_filter i acc hacc
      · rw [if_neg hi]
        refine (List.filter_eq_self.mpr ?_).symm
        intro j hj
        have hne : j ≠ i := fun e => hi (e ▸ hj)
        simp [hne]
    rw [hstep, ih _ (hacc.filter _), List.filter_filter]
    refine List.filter_congr ?_
    intro x _
    by_cases h1 : x = i
    · simp [h1]
    · by_cases h2 : x ∈ rest
      · simp [h1, h2]
      · simp [h1, h2]

/-- The `sig_indexes` setter never touches the other fields. -/
theorem setSigIndexes_other_fields (m : AxesManager) (sig : List Nat) :
    (setSigIndexes m sig).nav_indexes = m.nav_indexes ∧
    (setSigIndexes m sig).data_shape = m.data_shape ∧
    (setSigIndexes m sig).axes = m.axes := by
  unfold setSigIndexes
  split
  · exact ⟨rfl, rfl, rfl⟩
  · exact ⟨rfl, rfl, rfl⟩

/-- C4 (amended): the `nav_indexes` setter is all-or-nothing for
`nav_indexes` itself — the proposed tuple is stored when every proposed
index occurs among the declared axes indices and the prior value is kept
otherwise — but in both cases the setter then reassigns `sig_indexes` to
`compute_sig_indexes()` (the complement of the now-current `nav_indexes`
within the dimension indices, last conjunct); that recomputed complement
is applied when it passes the `sig_indexes` setter validation and
`sig_indexes` keeps its prior value otherwise.  So on a rejected
assignment the prior `sig_indexes` is not necessarily retained (it is
replaced by the recomputed complement whenever that passes validation),
and on a successful assignment `sig_indexes` is not necessarily the
complement (the complement can fail validation).  The shape and axes are
never modified. -/
theorem navIndexes_setter_spec (m : AxesManager) (nav : List Nat) :
    ((∀ i ∈ nav, i ∈ getAxesIndex m) → (setNavIndexes m nav).nav_indexes = nav) ∧
    ((¬ ∀ i ∈ nav, i ∈ getAxesIndex m) →
      (setNavIndexes m nav).nav_indexes = m.nav_indexes) ∧
    (∀ comp, comp = computeSigIndexes m.data_shape.length (setNavIndexes m nav).nav_indexes →
      ((∀ i ∈ comp, i ∉ (setNavIndexes m nav).nav_indexes ∧ i ∈ getAxesIndex m) →
        (setNavIndexes m nav).sig_indexes = comp) ∧
      ((¬ ∀ i ∈ comp, i ∉ (setNavIndexes m nav).nav_indexes ∧ i ∈ getAxesIndex m) →
        (setNavIndexes m nav).sig_indexes = m.sig_indexes)) ∧
    (setNavIndexes m nav).data_shape = m.data_shape ∧
    (setNavIndexes m nav).axes = m.axes ∧
    (∀ n : Nat, ∀ nv : List Nat, computeSigIndexes n nv
      = (List.range n).filter (fun j => decide (j ∉ nv))) := by
  have hgen : ∀ n nv, computeSigIndexes n nv
      = (List.range n).filter (fun j => decide (j ∉ nv)) :=
    fun n nv => computeSigIndexes_eq_filter n nv
  by_cases hv : ∀ i ∈ nav, i ∈ getAxesIndex m
  · have hunf : setNavIndexes m nav
        = setSigIndexes { m with nav_indexes := nav }
            (computeSigIndexes m.data_shape.length nav) := by
      simp only [setNavIndexes, if_pos hv]
    have hnav : (setNavIndexes m nav).nav_indexes = nav := by
      rw [hunf, (setSigIndexes_other_fields _ _).1]
    refine ⟨fun _ => hnav, fun hc => absurd hv hc, ?_, ?_, ?_, hgen⟩
    · intro comp hcomp
      rw [hnav] at hcomp
      constructor
      · intro hall
        have hcond : ∀ i ∈ computeSigIndexes m.data_shape.length nav,
            i ∉ ({ m with nav_indexes := nav } : AxesManager).nav_indexes ∧
            i ∈ getAxesIndex { m with nav_indexes := nav } := by
          intro i hi
          have hm : i ∈ comp := by rw [hcomp]; exact hi
          have hia := hall i hm
          rw [hnav] at hia
          exact ⟨hia.1, hia.2⟩
        rw [hunf]
        unfold setSigIndexes
        rw [if_pos hcond]
        exact hcomp.symm
      · intro hnot
        have hcond : ¬ (∀ i ∈ computeSigIndexes m.data_shape.length nav,
            i ∉ ({ m with nav_indexes := nav } : AxesManager).nav_indexes ∧
            i ∈ getAxesIndex { m with nav_indexes := nav }) := by
          intro hall
          apply hnot
          intro i hi
          have hm : i ∈ computeSigIndexes m.data_shape.length nav := by
            rw [← hcomp]; exact hi
          have hia := hall i hm
          rw [hnav]
          exact ⟨hia.1, hia.2⟩
        rw [hunf]
        unfold setSigIndexes
        rw [if_neg hcond]
    · rw [hunf, (setSigIndexes_other_fields _ _).2.1]
    · rw [hunf, (setSigIndexes_other_fields _ _).2.2]
  · have hunf : setNavIndexes m nav
        = setSigIndexes m (computeSigIndexes m.data_shape.length m.nav_indexes) := by
      simp only [setNavIndexes, if_neg hv]
    have hnav : (setNavIndexes m nav).nav_indexes = m.nav_indexes := by
      rw [hunf, (setSigIndexes_other_fields _ _).1]
    refine ⟨fun hc => absurd hc hv, fun _ => hnav, ?_, ?_, ?_, hgen⟩
    · intro comp hcomp
      rw [hnav] at hcomp
      constructor
      · intro hall
        have hcond : ∀ i ∈ computeSigIndexes m.data_shape.length m.nav_indexes,
            i ∉ m.nav_indexes ∧ i ∈ getAxesIndex m := by
          intro i hi
          have hm : i ∈ comp := by rw [hcomp]; exact hi
          have hia := hall i hm
          rw [hnav] at hia
          exact hia
        rw [hunf]
        unfold setSigIndexes
        rw [if_pos hcond]
        exact hcomp.symm
      · intro hnot
        have hcond : ¬ (∀ i ∈ computeSigIndexes m.data_shape.length m.nav_indexes,
            i ∉ m.nav_indexes ∧ i ∈ getAxesIndex m) := by
          intro hall
          apply hnot
          intro i hi
          have hm : i ∈ computeSigIndexes m.data_shape.length m.nav_indexes := by
            rw [← hcomp]; exact hi
          have hia := hall i hm
          rw [hnav]
          exact hia
        rw [hunf]
        unfold setSigIndexes
        rw [if_neg hcond]
    · rw [hunf, (setSigIndexes_other_fields _ _).2.1]
    · rw [hunf, (setSigIndexes_other_fields _ _).2.2]

/-- C4 witness: a valid assignment on the concrete manager `mgrC4`
stores the proposed tuple. -/
theorem navIndexes_setter_spec_witness :
    (setNavIndexes mgrC4 [1]).nav_indexes = [1] :=
  (navIndexes_setter_spec mgrC4 [1]).1 (by decide)

/-- C6: for every `DataBase` constructed without forcing `dim`, the `dim`
attribute is derived from the common shape and size exactly as claimed:
length-1 shape of size 1 is 0D, length-1 shape of larger size is 1D,
length-2 shape is 2D, anything else is ND — in particular `(1,)` is 0D,
`(100,)` is 1D, `(50,100)` is 2D and `(3,50,100)` is ND. -/
theorem dataBase_dim_derivation (name : String) (source : DataSource)
    (distribution : DataDistribution) (data : List NArray) (labels : List String)
    (origin : Option String) (db : DataBase)
    (h : mkDataBase name source none distribution data labels origin = Except.ok db) :
    db.dim = dimFromShape db.shape db.size ∧
    dimFromShape [1] 1 = DataDim.Data0D ∧
    dimFromShape [100] 100 = DataDim.Data1D ∧
    dimFromShape [50, 100] 5000 = DataDim.Data2D ∧
    dimFromShape [3, 50, 100] 15000 = DataDim.DataND := by
  refine ⟨?_, by decide, by decide, by decide, by decide⟩
  cases data with
  | nil => simp [mkDataBase] at h
  | cons d0 rest =>
    simp only [mkDataBase] at h
    split at h
    · exact absurd h (by simp)
    · split at h
      · have heq := Except.ok.inj h
        subst heq
        rfl
      · exact absurd h (by simp)

/-- C6 witness: the concrete construction
`DataBase(name='d', data=[np.array([7.])])` yields `dim = Data0D`. -/
theorem dataBase_dim_derivation_witness :
    dbC6.dim = dimFromShape dbC6.shape dbC6.size :=
  (dataBase_dim_derivation "d" DataSource.raw DataDistribution.uniform
    [{ shape := [1], flat := [7] }] [] none dbC6 (by decide)).1

/-- Subtracting after adding recovers the original list of values
(exact rational arithmetic). -/
theorem zipWith_add_sub (x : List ℚ) : ∀ y : List ℚ, x.length = y.length →
    (x.zipWith (fun u v => u + v) y).zipWith (fun u v => u - v) y = x := by
  induction x with
  | nil =>
    intro y _
    simp
  | cons a as ih =>
    intro y h
    cases y with
    | nil => simp at h
    | cons b bs =>
      simp only [List.zipWith_cons_cons]
      rw [ih bs (by simpa using h)]
      simp

/-- The element-wise comparison of `DataBase.__eq__` is reflexive. -/
theorem eqArrays_refl : ∀ l : List NArray, eqArrays l l = true := by
  intro l
  induction l with
  | nil => rfl
  | cons x xs ih => simp [eqArrays, allclose, ih]

/-- `DataBase.__eq__` is reflexive. -/
theorem dbEq_refl (a : DataBase) : dbEq a a = true := by
  simp [dbEq, eqArrays_refl]

/-- Round trip of the add and sub loops on the payload lists: when every
array on both sides has the common shape with matching flat length, the
checked addition succeeds and the checked subtraction of the result
returns the original payload exactly. -/
theorem addSub_roundtrip_arrays (shp : List Nat) :
    ∀ xs ys : List NArray,
      (∀ x ∈ xs, x.shape = shp ∧ x.flat.length = shp.prod) →
      (∀ y ∈ ys, y.shape = shp ∧ y.flat.length = shp.prod) →
      xs.length = ys.length →
      ∃ zs, addArraysChecked xs ys shp = .ok zs ∧
        subArraysChecked zs ys shp = .ok xs := by
  intro xs
  induction xs with
  | nil =>
    intro ys _ _ hlen
    cases ys with
    | nil => exact ⟨[], rfl, rfl⟩
    | cons y ys => simp at hlen
  | cons x xs ih =>
    intro ys hx hy hlen
    cases ys with
    | nil => simp at hlen
    | cons y ys =>
      have hx0 := hx x (List.mem_cons_self x xs)
      have hy0 := hy y (List.mem_cons_self y ys)
      obtain ⟨zs, hadd, hsub⟩ := ih ys
        (fun a ha => hx a (List.mem_cons_of_mem _ ha))
        (fun a ha => hy a (List.mem_cons_of_mem _ ha))
        (by simpa using hlen)
      have hsh : x.shape = y.shape := by rw [hx0.1, hy0.1]
      have hflat : (x.flat.zipWith (fun u v => u + v) y.flat).zipWith
          (fun u v => u - v) y.flat = x.flat :=
        zipWith_add_sub x.flat y.flat (by rw [hx0.2, hy0.2])
      refine ⟨{ shape := x.shape, flat := x.flat.zipWith (fun u v => u + v) y.flat } :: zs,
        ?_, ?_⟩
      · simp only [addArraysChecked]
        rw [if_neg (fun hc => hc hsh), if_pos hx0.1, hadd]
        rfl
      · simp only [subArraysChecked]
        rw [if_neg (fun hc => hc hsh), hflat]
        rw [if_pos hx0.1, hsub]
        rfl

/-- C8: for equal-length `DataBase` operands with pairwise equal-shape
arrays, `(a + b) - b` succeeds and is equal to `a` under the defined
`DataBase` equality (same name, same length, arrays pairwise close) —
exactly, in the rational model of the floating tolerance. -/
theorem dataBase_add_sub_roundtrip (a b : DataBase)
    (hwa : a.WF) (hwb : b.WF) (hlen : a.length = b.length)
    (hshape : a.shape = b.shape) :
    ∃ c d, dbAdd a b = .ok c ∧ dbSub c b = .ok d ∧ dbEq d a = true := by
  have hxs : ∀ x ∈ a.dataList, x.shape = a.shape ∧ x.flat.length = a.shape.prod := by
    intro x hx
    have h2 := hwa.2 x hx
    exact ⟨h2.1, by rw [h2.2, h2.1]⟩
  have hys : ∀ y ∈ b.dataList, y.shape = a.shape ∧ y.flat.length = a.shape.prod := by
    intro y hy
    have h2 := hwb.2 y hy
    exact ⟨by rw [h2.1, hshape], by rw [h2.2, h2.1, hshape]⟩
  have hlist : a.dataList.length = b.dataList.length := by
    rw [← hwa.1, ← hwb.1, hlen]
  obtain ⟨zs, hadd, hsub⟩ :=
    addSub_roundtrip_arrays a.shape a.dataList b.dataList hxs hys hlist
  refine ⟨{ a with dataList := zs }, a, ?_, ?_, dbEq_refl a⟩
  · unfold dbAdd
    rw [if_pos hlen, hadd]
    rfl
  · unfold dbSub
    rw [if_pos (show ({ a with dataList := zs } : DataBase).length = b.length from hlen)]
    rw [show subArraysChecked ({ a with dataList := zs } : DataBase).dataList b.dataList
        ({ a with dataList := zs } : DataBase).shape = .ok a.dataList from hsub]
    rfl

/-- C8 witness: the round trip on two concrete one-array objects of
shape `(2,)`. -/
theorem dataBase_add_sub_roundtrip_witness :
    ∃ c d, dbAdd dbC8a dbC8b = .ok c ∧ dbSub c dbC8b = .ok d ∧ dbEq d dbC8a = true :=
  dataBase_add_sub_roundtrip dbC8a dbC8b ⟨rfl, by decide⟩ ⟨rfl, by decide⟩ rfl rfl

/-- An object found by the name and origin lookup is a member of the
list. -/
theorem mem_of_getDataFromNameOrigin (l : List DataBase) (name : String)
    (origin : Option String) (obj : DataBase)
    (h : getDataFromNameOrigin l name origin = some obj) : obj ∈ l := by
  unfold getDataFromNameOrigin at h
  cases origin with
  | none => exact List.mem_of_find?_eq_some h
  | some o =>
    have h2 : obj ∈ findAllByName l name := List.mem_of_find?_eq_some h
    exact List.mem_of_mem_filter h2

/-- Removing the first element satisfying a satisfiable predicate shortens
the list by exactly one. -/
theorem eraseFirstP_length {α : Type} (p : α → Bool) :
    ∀ l : List α, (∃ e ∈ l, p e = true) →
      (eraseFirstP p l).length + 1 = l.length := by
  intro l
  induction l with
  | nil =>
    rintro ⟨e, he, -⟩
    cases he
  | cons x xs ih =>
    rintro ⟨e, he, hp⟩
    by_cases hx : p x = true
    · simp [eraseFirstP, hx]
    · rcases List.mem_cons.mp he with rfl | hme
      · exact absurd hp hx
      · simp only [eraseFirstP, if_neg hx, List.length_cons]
        have := ih ⟨e, hme, hp⟩
        omega

/-- C3 (amended): appending keeps both members when no existing member
matches the `(name, origin)` pair of the appended object (so two members
with the same name but different origins coexist); when the lookup finds
a member `obj`, the first member that compares equal to `obj` under
`DataBase.__eq__` (same name and close arrays — the origin is not part of
that equality, so this need not be `obj` itself) is removed and the copy
is appended at the end, preserving the list length. -/
theorem dte_append_spec (d : DataToExport) (x : DataBase) :
    (getDataFromNameOrigin d.dataList x.name x.origin = none →
      (d.appendOne x).dataList = d.dataList ++ [x]) ∧
    (∀ obj, getDataFromNameOrigin d.dataList x.name x.origin = some obj →
      (d.appendOne x).dataList
        = eraseFirstP (fun e => dbEq e obj) d.dataList ++ [x] ∧
      (d.appendOne x).dataList.length = d.dataList.length) := by
  constructor
  · intro h
    unfold DataToExport.appendOne
    rw [h]
  · intro obj h
    have hmem : obj ∈ d.dataList := mem_of_getDataFromNameOrigin _ _ _ _ h
    constructor
    · unfold DataToExport.appendOne
      rw [h]
    · unfold DataToExport.appendOne
      rw [h]
      have hlen := eraseFirstP_length (fun e => dbEq e obj) d.dataList
        ⟨obj, hmem, dbEq_refl obj⟩
      simp only [List.length_append, List.length_cons, List.length_nil]
      omega

/-- C3 witness: appending to an empty collection simply appends. -/
theorem dte_append_spec_witness :
    (dteC3w.appendOne m1C3).dataList = dteC3w.dataList ++ [m1C3] :=
  (dte_append_spec dteC3w m1C3).1 (by decide)

/-- C5 (amended): `append` stores the deep copy verbatim — in particular
an unset origin stays unset, so the auto-assignment of the claim does not
happen on `append`; the `origin = self.name` assignment is performed by
the `data` property setter (run at construction and on `data`
assignment), after which no member has an unset origin, and a member
appended through the setter with unset origin gets `origin = self.name`. -/
theorem origin_assignment_spec (d : DataToExport) (x : DataBase)
    (xs : List DataBase) (hx : x.origin = none) :
    (d.appendOne x).dataList.getLast? = some x ∧
    (∀ m ∈ (d.setData xs).dataList, m.origin ≠ none) ∧
    (∀ m ∈ (DataToExport.setData d [x]).dataList, m.origin = some d.name) := by
  refine ⟨?_, ?_, ?_⟩
  · unfold DataToExport.appendOne
    cases hfind : getDataFromNameOrigin d.dataList x.name x.origin with
    | some obj => simp [List.getLast?_concat]
    | none => simp [List.getLast?_concat]
  · intro m hm
    unfold DataToExport.setData affectNameToOriginIfNone at hm
    obtain ⟨x0, hx0, hfx⟩ := List.mem_map.mp hm
    by_cases h0 : x0.origin = none
    · rw [if_pos h0] at hfx
      rw [← hfx]
      simp
    · rw [if_neg h0] at hfx
      rw [← hfx]
      exact h0
  · intro m hm
    unfold DataToExport.setData affectNameToOriginIfNone at hm
    obtain ⟨x0, hx0, hfx⟩ := List.mem_map.mp hm
    have hxx : x0 = x := by simpa using hx0
    subst hxx
    rw [if_pos hx] at hfx
    rw [← hfx]

/-- C5 witness: appending an origin-less object to an empty collection
keeps its origin unset. -/
theorem origin_assignment_spec_witness :
    ((mkDataToExport "dtew5" []).appendOne xC5).dataList.getLast? = some xC5 :=
  (origin_assignment_spec (mkDataToExport "dtew5" []) xC5 [xC5] rfl).1

/-- Splitting off the last point of the linear sequence. -/
theorem linspace_succ (o s : ℚ) (n : ℕ) :
    linspace o s (n + 1) = linspace o s n ++ [o + s * (n : ℚ)] := by
  simp [linspace, List.range_succ]

/-- The linear sequence has the requested number of points. -/
theorem linspace_length (o s : ℚ) (n : ℕ) : (linspace o s n).length = n := by
  unfold linspace
  rw [List.length_map, List.length_range]

/-- Closed form of the sum of the linear sequence. -/
theorem linspace_sum (o s : ℚ) :
    ∀ n : ℕ, (linspace o s n).sum
      = (n : ℚ) * o + s * ((n : ℚ) * ((n : ℚ) - 1)) / 2 := by
  intro n
  induction n with
  | zero => simp [linspace]
  | succ n ih =>
    rw [linspace_succ, List.sum_append, ih]
    push_cast
    simp only [List.sum_cons, List.sum_nil]
    ring

/-- `np.mean` of a nonempty array is the sum over the length. -/
theorem npMean_eq (l : List ℚ) (h : l ≠ []) :
    npMean l = .ok (l.sum / (l.length : ℚ)) := by
  cases l with
  | nil => exact absurd rfl h
  | cons x xs => rfl

/-- Mean of the linear sequence with at least one point. -/
theorem npMean_linspace (o s : ℚ) (n : ℕ) (h1 : 1 ≤ n) :
    npMean (linspace o s n) = .ok (o + s * ((n : ℚ) - 1) / 2) := by
  have hne : linspace o s n ≠ [] := by
    intro he
    have := linspace_length o s n
    rw [he] at this
    simp at this
    omega
  rw [npMean_eq _ hne, linspace_sum, linspace_length]
  have hnpos : 0 < (n : ℚ) := by
    exact_mod_cast (show 0 < n by omega)
  have hn0 : (n : ℚ) ≠ 0 := ne_of_gt hnpos
  congr 1
  field_simp
  ring

/-- `np.min` of an array extended by one value takes the minimum with
that value. -/
theorem npMin_concat (l : List ℚ) (v m : ℚ) (h : npMin l = .ok m) :
    npMin (l ++ [v]) = .ok (min m v) := by
  cases l with
  | nil => exact absurd h (by simp [npMin])
  | cons x xs =>
    have hm : xs.foldl min x = m := Except.ok.inj h
    simp only [List.cons_append, npMin, List.foldl_append, hm, List.foldl_cons,
      List.foldl_nil]

/-- `np.max` of an array extended by one value takes the maximum with
that value. -/
theorem npMax_concat (l : List ℚ) (v m : ℚ) (h : npMax l = .ok m) :
    npMax (l ++ [v]) = .ok (max m v) := by
  cases l with
  | nil => exact absurd h (by simp [npMax])
  | cons x xs =>
    have hm : xs.foldl max x = m := Except.ok.inj h
    simp only [List.cons_append, npMax, List.foldl_append, hm, List.foldl_cons,
      List.foldl_nil]

/-- Closed form of the minimum of the linear sequence: the last point for
negative scaling, the first point otherwise. -/
theorem npMin_linspace (o s : ℚ) :
    ∀ n : ℕ, 1 ≤ n →
      npMin (linspace o s n) = .ok (if s < 0 then o + s * ((n : ℚ) - 1) else o) := by
  intro n
  induction n with
  | zero => omega
  | succ n ih =>
    intro _
    by_cases hn : 1 ≤ n
    · have hprev := ih hn
      rw [linspace_succ, npMin_concat _ _ _ hprev]
      by_cases hs : s < 0
      · rw [if_pos hs, if_pos hs]
        have hle : s * (n : ℚ) ≤ s * ((n : ℚ) - 1) :=
          mul_le_mul_of_nonpos_left (by linarith) (le_of_lt hs)
        rw [min_eq_right (by linarith)]
        push_cast
        ring_nf
      · rw [if_neg hs, if_neg hs]
        have h0 : 0 ≤ s := not_lt.mp hs
        have hle : 0 ≤ s * (n : ℚ) := mul_nonneg h0 (by positivity)
        rw [min_eq_left (by linarith)]
    · have hn0 : n = 0 := by omega
      subst hn0
      have hbase : linspace o s 1 = [o + s * 0] := by
        simp [linspace, List.range_succ]
      rw [hbase]
      by_cases hs : s < 0
      · rw [if_pos hs]
        simp [npMin]
      · rw [if_neg hs]
        simp [npMin]

/-- Closed form of the maximum of the linear sequence: the last point for
positive scaling, the first point otherwise. -/
theorem npMax_linspace (o s : ℚ) :
    ∀ n : ℕ, 1 ≤ n →
      npMax (linspace o s n) = .ok (if 0 < s then o + s * ((n : ℚ) - 1) else o) := by
  intro n
  induction n with
  | zero => omega
  | succ n ih =>
    intro _
    by_cases hn : 1 ≤ n
    · have hprev := ih hn
      rw [linspace_succ, npMax_concat _ _ _ hprev]
      by_cases hs : 0 < s
      · rw [if_pos hs, if_pos hs]
        have hle : s * ((n : ℚ) - 1) ≤ s * (n : ℚ) :=
          mul_le_mul_of_nonneg_left (by linarith) (le_of_lt hs)
        rw [max_eq_right (by linarith)]
        push_cast
        ring_nf
      · rw [if_neg hs, if_neg hs]
        have h0 : s ≤ 0 := not_lt.mp hs
        have hle : s * (n : ℚ) ≤ 0 := mul_nonpos_of_nonpos_of_nonneg h0 (by positivity)
        rw [max_eq_left (by linarith)]
    · have hn0 : n = 0 := by omega
      subst hn0
      have hbase : linspace o s 1 = [o + s * 0] := by
        simp [linspace, List.range_succ]
      rw [hbase]
      by_cases hs : 0 < s
      · rw [if_pos hs]
        simp [npMax]
      · rw [if_neg hs]
        simp [npMax]

/-- C7 (amended): for a compact axis with offset `o`, scaling `s` and
size `n ≥ 1`, the closed-form branch is off by one step relative to the
virtual sequence `o + s*i`, `i = 0..n-1`: `mean()` exceeds the exact mean
by `s/2`; `min()` equals the exact minimum plus `s` when `s < 0` (and
equals it when `s ≥ 0`); `max()` equals the exact maximum plus `s` when
`s > 0` (and equals it when `s ≤ 0`).  The exact statistics, computed
here in closed form, are the mean `o + s*(n-1)/2`, the minimum
`o + s*(n-1)` for `s < 0` and `o` otherwise, and symmetrically for the
maximum. -/
theorem axis_compact_stats (a : Axis) (o s : ℚ) (n : ℕ)
    (hd : a.data = none) (ho : a.offset = some o) (hs : a.scaling = some s)
    (hn : a.size = n) (h1 : 1 ≤ n) :
    (npMean (linspace o s n) = .ok (o + s * ((n : ℚ) - 1) / 2) ∧
      a.mean = .ok (o + s * ((n : ℚ) - 1) / 2 + s / 2)) ∧
    (npMin (linspace o s n) = .ok (if s < 0 then o + s * ((n : ℚ) - 1) else o) ∧
      a.min = .ok ((if s < 0 then o + s * ((n : ℚ) - 1) else o)
        + (if s < 0 then s else 0))) ∧
    (npMax (linspace o s n) = .ok (if 0 < s then o + s * ((n : ℚ) - 1) else o) ∧
      a.max = .ok ((if 0 < s then o + s * ((n : ℚ) - 1) else o)
        + (if 0 < s then s else 0))) := by
  refine ⟨⟨npMean_linspace o s n h1, ?_⟩, ⟨npMin_linspace o s n h1, ?_⟩,
    ⟨npMax_linspace o s n h1, ?_⟩⟩
  · simp only [Axis.mean, hd, ho, hs, hn]
    exact congrArg Except.ok (by ring)
  · simp only [Axis.min, hd, ho, hs, hn]
    refine congrArg Except.ok ?_
    by_cases hsn : s < 0
    · rw [if_pos hsn, if_pos hsn, if_pos hsn]
      ring
    · rw [if_neg hsn, if_neg hsn, if_neg hsn]
  · simp only [Axis.max, hd, ho, hs, hn]
    refine congrArg Except.ok ?_
    by_cases hsn : 0 < s
    · rw [if_pos hsn, if_pos hsn, if_pos hsn]
      ring
    · rw [if_neg hsn, if_neg hsn, if_neg hsn]

/-- C7 witness: the amended statement applied to the concrete compact
axis with offset 0, scaling 1, size 2: `mean()` returns `1`, which is
the exact mean `1/2` plus `1/2`. -/
theorem axis_compact_stats_witness :
    Axis.mean axisC7 = Except.ok ((0 : ℚ) + 1 * ((2 : ℚ) - 1) / 2 + 1 / 2) :=
  (axis_compact_stats axisC7 0 1 2 rfl rfl rfl rfl (by norm_num)).1.2

end PyMoDAQ
